import Mathlib

/-!
Verification of the steering-and-integration core of the `bevy-lyon-boid`
repository (src/main.rs).

The Rust source works on `glam::Vec3` (three `f32` components).  We embed the
vector arithmetic over the real numbers: every glam operation used by the
source (`+`, `-`, scalar `*`, `dot`, `length_squared`, `length`, `normalize`,
`clamp_length_max`, `angle_between`, `f32::signum`) is translated literally,
component by component, from the glam implementation the source calls.
`normalize` of the zero vector divides by a zero length in the source and
yields NaN components; since NaN is not a real number, that fallible
operation returns `Option` here, with `none` standing for the NaN outcome.

The ECS components `Physics { velocity, acceleration, max_speed, max_force }`,
`Transform { translation, rotation }` (only the z-rotation angle passed to
`Quat::from_rotation_z` is kinematically relevant, so `rotation` stores that
angle) and `Steering { target }` are embedded as records.  The per-frame
schedule of `main` constrains only `steering.after(physics_system)`, so one
frame of the boid pipeline is: run `physics_system`, then run `steering`
with the frame's target (supplied per frame by `seek_target`/`move_target`,
modelled as the per-frame target input of `runFrames`).
-/

noncomputable section

/-- Three-component real vector, embedding `glam::Vec3` (`f32` components in
the source). -/
@[ext]
structure Vec3 where
  x : ℝ
  y : ℝ
  z : ℝ

namespace Vec3

instance : Zero Vec3 := ⟨⟨0, 0, 0⟩⟩

instance : Add Vec3 := ⟨fun a b => ⟨a.x + b.x, a.y + b.y, a.z + b.z⟩⟩

instance : Sub Vec3 := ⟨fun a b => ⟨a.x - b.x, a.y - b.y, a.z - b.z⟩⟩

instance : SMul ℝ Vec3 := ⟨fun c v => ⟨c * v.x, c * v.y, c * v.z⟩⟩

instance : DecidableEq Vec3 := fun _ _ => Classical.dec _

@[simp] lemma zero_mk : (0 : Vec3) = ⟨0, 0, 0⟩ := rfl

@[simp] lemma mk_add_mk (a b c d e f : ℝ) :
    (⟨a, b, c⟩ + ⟨d, e, f⟩ : Vec3) = ⟨a + d, b + e, c + f⟩ := rfl

@[simp] lemma mk_sub_mk (a b c d e f : ℝ) :
    (⟨a, b, c⟩ - ⟨d, e, f⟩ : Vec3) = ⟨a - d, b - e, c - f⟩ := rfl

@[simp] lemma smul_mk (c a b d : ℝ) :
    c • (⟨a, b, d⟩ : Vec3) = ⟨c * a, c * b, c * d⟩ := rfl

@[simp] lemma add_x (a b : Vec3) : (a + b).x = a.x + b.x := rfl
@[simp] lemma add_y (a b : Vec3) : (a + b).y = a.y + b.y := rfl
@[simp] lemma add_z (a b : Vec3) : (a + b).z = a.z + b.z := rfl
@[simp] lemma sub_x (a b : Vec3) : (a - b).x = a.x - b.x := rfl
@[simp] lemma sub_y (a b : Vec3) : (a - b).y = a.y - b.y := rfl
@[simp] lemma sub_z (a b : Vec3) : (a - b).z = a.z - b.z := rfl
@[simp] lemma smul_x (c : ℝ) (v : Vec3) : (c • v).x = c * v.x := rfl
@[simp] lemma smul_y (c : ℝ) (v : Vec3) : (c • v).y = c * v.y := rfl
@[simp] lemma smul_z (c : ℝ) (v : Vec3) : (c • v).z = c * v.z := rfl

lemma sub_self_vec (v : Vec3) : v - v = 0 := by ext <;> simp

lemma zero_add_vec (v : Vec3) : 0 + v = v := by ext <;> simp

lemma sub_eq_zero_vec {a b : Vec3} : a - b = 0 ↔ a = b := by
  constructor
  · intro h
    have hx := congrArg Vec3.x h
    have hy := congrArg Vec3.y h
    have hz := congrArg Vec3.z h
    simp at hx hy hz
    ext <;> simp [sub_eq_zero] at hx hy hz ⊢ <;> assumption
  · intro h; subst h; exact sub_self_vec a

/-- Embedding of `glam::Vec3::dot`: componentwise product sum. -/
def dot (a b : Vec3) : ℝ := a.x * b.x + a.y * b.y + a.z * b.z

/-- Embedding of `glam::Vec3::length_squared` (`dot(self, self)`). -/
def lengthSq (v : Vec3) : ℝ := dot v v

/-- Embedding of `glam::Vec3::length` (`length_squared().sqrt()`). -/
def length (v : Vec3) : ℝ := Real.sqrt (lengthSq v)

/-- Embedding of `glam::Vec3::Y`. -/
def Y : Vec3 := ⟨0, 1, 0⟩

/-- Embedding of `glam::Vec3::normalize` (`self * self.length().recip()`).
On the zero vector the source divides by a zero length and produces NaN
components; that outcome is modelled as `none`. -/
def normalize (v : Vec3) : Option Vec3 :=
  if v = 0 then none else some ((length v)⁻¹ • v)

/-- Embedding of `glam::Vec3::clamp_length_max`: if `length_squared` exceeds
`max * max`, rescale the vector by `max` divided by the actual length,
otherwise return it unchanged. -/
def clampLengthMax (v : Vec3) (max : ℝ) : Vec3 :=
  if lengthSq v > max * max then (max / length v) • v else v

/-- Embedding of `glam::Vec3::angle_between`
(`dot(rhs).div(length_squared().mul(rhs.length_squared()).sqrt()).acos()`). -/
def angleBetween (a b : Vec3) : ℝ :=
  Real.arccos (dot a b / Real.sqrt (lengthSq a * lengthSq b))

lemma lengthSq_nonneg (v : Vec3) : 0 ≤ lengthSq v := by
  have hx := mul_self_nonneg v.x
  have hy := mul_self_nonneg v.y
  have hz := mul_self_nonneg v.z
  unfold lengthSq dot
  linarith

lemma length_nonneg (v : Vec3) : 0 ≤ length v := Real.sqrt_nonneg _

lemma lengthSq_smul (c : ℝ) (v : Vec3) :
    lengthSq (c • v) = (c * c) * lengthSq v := by
  unfold lengthSq dot
  simp only [smul_x, smul_y, smul_z]
  ring

lemma length_smul (c : ℝ) (v : Vec3) : length (c • v) = |c| * length v := by
  unfold length
  rw [lengthSq_smul, Real.sqrt_mul (mul_self_nonneg c), Real.sqrt_mul_self_eq_abs]

/-- Core bound used by the speed-cap and force-cap invariants: the result of
`clamp_length_max` has length at most the (nonnegative) bound. -/
lemma length_clampLengthMax_le (v : Vec3) {m : ℝ} (hm : 0 ≤ m) :
    length (clampLengthMax v m) ≤ m := by
  unfold clampLengthMax
  split_ifs with h
  · have hpos : 0 < length v :=
      Real.sqrt_pos.mpr (lt_of_le_of_lt (mul_self_nonneg m) h)
    rw [length_smul, abs_of_nonneg (div_nonneg hm hpos.le),
      div_mul_cancel₀ _ (ne_of_gt hpos)]
  · have h1 : lengthSq v ≤ m * m := le_of_not_lt h
    have h2 : length v ≤ Real.sqrt (m * m) := Real.sqrt_le_sqrt h1
    rwa [Real.sqrt_mul_self hm] at h2

end Vec3

/-- Embedding of Rust `f32::signum` on real (non-NaN) inputs: `1.0` for
positive values and positive zero, `-1.0` for negative values. -/
def signum (x : ℝ) : ℝ := if x < 0 then -1 else 1

/-- Embedding of the `Physics` component of src/main.rs. -/
structure Physics where
  velocity : Vec3
  acceleration : Vec3
  max_speed : ℝ
  max_force : ℝ

/-- Embedding of the kinematically relevant part of bevy's `Transform`
component: `translation`, and the z-rotation angle that the source passes to
`Quat::from_rotation_z`. -/
structure Transform where
  translation : Vec3
  rotation : ℝ

/-- Embedding of `angle_to_direction` of src/main.rs. -/
def angle_to_direction (new_velocity : Vec3) : ℝ :=
  if new_velocity = 0 then 0
  else Vec3.angleBetween new_velocity Vec3.Y * -(signum new_velocity.x)

/-- Embedding of the per-boid body of `physics_system` of src/main.rs:
returns the updated `Transform` and `Physics` components. -/
def physics_system (transform : Transform) (physics : Physics) :
    Transform × Physics :=
  let previous_acceleration := physics.acceleration
  let previous_velocity := physics.velocity
  let previous_position := transform.translation
  let max_speed := physics.max_speed
  let new_velocity := previous_velocity + previous_acceleration
  let new_position := previous_position + new_velocity
  let angle_between_positions := angle_to_direction new_velocity
  ( { translation := new_position, rotation := angle_between_positions },
    { physics with
        velocity := Vec3.clampLengthMax new_velocity max_speed,
        acceleration := 0 } )

/-- Embedding of `apply_force` of src/main.rs. -/
def apply_force (physics : Physics) (force : Vec3) : Physics :=
  { physics with acceleration := physics.acceleration + force }

/-- Embedding of the force computation in the per-boid body of `steering` of
src/main.rs: `desired = target - translation`, normalized (NaN, i.e. `none`,
when the difference is zero), scaled by `max_speed`, minus the current
velocity, clamped by `clamp_length_max` to `max_force`. -/
def steeringForce (translation target : Vec3) (physics : Physics) :
    Option Vec3 :=
  (Vec3.normalize (target - translation)).map fun desired =>
    Vec3.clampLengthMax (physics.max_speed • desired - physics.velocity)
      physics.max_force

/-- Embedding of the per-boid body of the `steering` system of src/main.rs:
compute the steering force and `apply_force` it into the `Physics`
component. -/
def steering (transform : Transform) (target : Vec3) (physics : Physics) :
    Option Physics :=
  (steeringForce transform.translation target physics).map (apply_force physics)

/-- Per-boid world state: `Transform`, `Physics`, and the `Steering`
component's cached `target`. -/
structure BoidState where
  transform : Transform
  physics : Physics
  target : Vec3

/-- One frame of the boid pipeline as scheduled by `main` of src/main.rs:
the only ordering constraint is `steering.after(physics_system)`, so the
frame runs `physics_system` first and `steering` second, on the frame's
target. -/
def frame (s : BoidState) : Option BoidState :=
  let tp := physics_system s.transform s.physics
  (steering tp.1 s.target tp.2).map fun p =>
    { transform := tp.1, physics := p, target := s.target }

/-- Run a sequence of frames, the i-th frame seeing the i-th target position
(the target is overwritten each frame by `seek_target`/`move_target`). -/
def runFrames (s : BoidState) : List Vec3 → Option BoidState
  | [] => some s
  | t :: ts => (frame { s with target := t }).bind fun s' => runFrames s' ts

/-- Embedding of `move_target` of src/main.rs.  The camera unprojection
(`compute_matrix() * projection_matrix().inverse()` followed by
`project_point3`) is windowing infrastructure and is abstracted as the
function argument `ndc_to_world`; the screen-to-ndc arithmetic and the
cursor handling are translated literally: when `cursor_position()` returns
`None` the target transform is not written at all. -/
def move_target (window_size : ℝ × ℝ) (ndc_to_world : Vec3 → Vec3)
    (cursor : Option (ℝ × ℝ)) (target : Vec3) : Vec3 :=
  match cursor with
  | some screen_pos =>
      let ndc : ℝ × ℝ :=
        (screen_pos.1 / window_size.1 * 2 - 1, screen_pos.2 / window_size.2 * 2 - 1)
      let world_pos := ndc_to_world ⟨ndc.1, ndc.2, -1⟩
      ⟨world_pos.x, world_pos.y, 0⟩
  | none => target

/-- Spec-side formalization (§4.1 step 5) of clamping a force: if its
magnitude exceeds the cap, rescale it to exactly the cap, otherwise leave it
unchanged. -/
def specClampForce (f : Vec3) (maxForce : ℝ) : Vec3 :=
  if maxForce < Vec3.length f then (maxForce / Vec3.length f) • f else f

/-- Spec-side formalization of the seek force (§4.1): normalize
`target - position` to unit length, scale by `max_speed`, subtract the
current velocity, clamp to magnitude at most `max_force`. -/
def specSeekForce (translation target : Vec3) (physics : Physics) : Vec3 :=
  specClampForce
    (physics.max_speed • ((1 / Vec3.length (target - translation)) • (target - translation))
      - physics.velocity)
    physics.max_force

/-- Spec-side formalization of the unsigned angle between two vectors:
arccos of the dot product divided by the product of the lengths. -/
def specUnsignedAngle (a b : Vec3) : ℝ :=
  Real.arccos (Vec3.dot a b / (Vec3.length a * Vec3.length b))

/-- Spec-side formalization (§2, §6) of the claimed frame order: `steering`
first, `physics_system` second. -/
def frameSpecOrder (s : BoidState) : Option BoidState :=
  (steering s.transform s.target s.physics).map fun p =>
    let tp := physics_system s.transform p
    { transform := tp.1, physics := tp.2, target := s.target }

lemma clampLengthMax_eq_spec (v : Vec3) {m : ℝ} (hm : 0 ≤ m) :
    Vec3.clampLengthMax v m = specClampForce v m := by
  unfold Vec3.clampLengthMax specClampForce
  have hiff : Vec3.lengthSq v > m * m ↔ m < Vec3.length v := by
    rw [Vec3.length, Real.lt_sqrt hm, pow_two]
  by_cases h : Vec3.lengthSq v > m * m
  · rw [if_pos h, if_pos (hiff.mp h)]
  · rw [if_neg h, if_neg (fun hc => h (hiff.mpr hc))]

/-- C4: in every integration step the new position is
`position + (velocity + acceleration)`, the orientation for the tick is
derived from that same unclamped intermediate velocity, and the stored
velocity is that intermediate vector clamped by `clamp_length_max` to
`max_speed` — the clamp touches only the stored velocity, after the
unclamped vector has produced position and orientation. -/
theorem physics_uses_unclamped_velocity (t : Transform) (p : Physics) :
    (physics_system t p).1.translation = t.translation + (p.velocity + p.acceleration) ∧
    (physics_system t p).1.rotation = angle_to_direction (p.velocity + p.acceleration) ∧
    (physics_system t p).2.velocity =
      Vec3.clampLengthMax (p.velocity + p.acceleration) p.max_speed :=
  ⟨rfl, rfl, rfl⟩

/-- C6 (amended): the integration step always leaves the acceleration
accumulator at exactly the zero vector, hence the acceleration is zero at
the start of each frame's steering computation, which the schedule runs
after `physics_system`. -/
theorem acceleration_zero_after_integration (t : Transform) (p : Physics) :
    (physics_system t p).2.acceleration = 0 := rfl

/-- C9: `apply_force` is purely additive: it adds the force into the
acceleration with no clamping or scaling, two applications sum, and no other
field of the `Physics` component is touched. -/
theorem apply_force_additive (p : Physics) (f1 f2 : Vec3) :
    (apply_force p f1).acceleration = p.acceleration + f1 ∧
    (apply_force (apply_force p f1) f2).acceleration = p.acceleration + f1 + f2 ∧
    (apply_force p f1).velocity = p.velocity ∧
    (apply_force p f1).max_speed = p.max_speed ∧
    (apply_force p f1).max_force = p.max_force :=
  ⟨rfl, rfl, rfl, rfl, rfl⟩

/-- C10: when the window reports no cursor position, `move_target` leaves
the target's world position unchanged. -/
theorem move_target_no_cursor (window_size : ℝ × ℝ)
    (ndc_to_world : Vec3 → Vec3) (target : Vec3) :
    move_target window_size ndc_to_world none target = target := rfl

/-- C7 (code evaluated at the failing input): when the target coincides with
the agent's position the desired direction is the zero vector, the source
normalizes it — dividing by a zero length, which yields NaN (modelled as
`none`) — so the steering system produces no zero force; the spec's required
degenerate-target handling (zero force, no NaN) is absent from the code. -/
theorem steering_degenerate_target (t : Transform) (p : Physics) :
    steeringForce t.translation t.translation p = none ∧
    steering t t.translation p = none := by
  have h : steeringForce t.translation t.translation p = none := by
    unfold steeringForce
    rw [Vec3.sub_self_vec, Vec3.normalize, if_pos rfl, Option.map_none']
  exact ⟨h, by unfold steering; rw [h, Option.map_none']⟩

/-- C5: the orientation computed by the integrator is `0` for the zero
velocity vector, and otherwise is the unsigned angle between the velocity
and the +Y axis (arccos of the normalized dot product) multiplied by the
negation of the sign of the velocity's X component (`f32::signum`, which
maps positive values and zero to `1` and negative values to `-1`). -/
theorem orientation_from_velocity (v : Vec3) :
    angle_to_direction v =
      if v = 0 then 0 else specUnsignedAngle v Vec3.Y * -(signum v.x) := by
  unfold angle_to_direction specUnsignedAngle Vec3.angleBetween
  by_cases h : v = 0
  · rw [if_pos h, if_pos h]
  · rw [if_neg h, if_neg h, Vec3.length, Vec3.length,
      Real.sqrt_mul (Vec3.lengthSq_nonneg v)]

lemma lengthSq_y (c : ℝ) : Vec3.lengthSq ⟨0, c, 0⟩ = c * c := by
  show 0 * 0 + c * c + 0 * 0 = c * c
  ring

lemma length_y {c : ℝ} (hc : 0 ≤ c) : Vec3.length ⟨0, c, 0⟩ = c := by
  show Real.sqrt (0 * 0 + c * c + 0 * 0) = c
  rw [show (0 * 0 + c * c + 0 * 0 : ℝ) = c * c by ring, Real.sqrt_mul_self hc]

lemma normalize_y {c : ℝ} (hc : 0 < c) :
    Vec3.normalize ⟨0, c, 0⟩ = some ⟨0, 1, 0⟩ := by
  rw [Vec3.normalize, if_neg (fun h => hc.ne' (congrArg Vec3.y h)), length_y hc.le]
  congr 1
  ext <;> simp [inv_mul_cancel₀ hc.ne']

lemma clamp_keep {v : Vec3} {m : ℝ} (h : Vec3.lengthSq v ≤ m * m) :
    Vec3.clampLengthMax v m = v := by
  rw [Vec3.clampLengthMax, if_neg (not_lt_of_le h)]

lemma angle_to_direction_y {c : ℝ} (hc : 0 < c) :
    angle_to_direction ⟨0, c, 0⟩ = 0 := by
  rw [angle_to_direction, if_neg (fun h => hc.ne' (congrArg Vec3.y h)),
    Vec3.angleBetween]
  have h1 : Vec3.dot ⟨0, c, 0⟩ Vec3.Y = c := by
    show 0 * 0 + c * 1 + 0 * 0 = c
    ring
  have h2 : Vec3.lengthSq ⟨0, c, 0⟩ * Vec3.lengthSq Vec3.Y = c * c := by
    rw [lengthSq_y]
    show c * c * (0 * 0 + 1 * 1 + 0 * 0) = c * c
    ring
  rw [h1, h2, Real.sqrt_mul_self hc.le, div_self (ne_of_gt hc),
    Real.arccos_one, zero_mul]

/-- C2: for a non-degenerate target and a nonnegative force cap (the data
model fixes `max_force ≥ 0`), the force produced by the steering step is
exactly the spec's seek force — normalize the offset to unit length, scale
by `max_speed`, subtract the current velocity, clamp to magnitude at most
`max_force` — and the steering system accumulates exactly that force into
the acceleration. -/
theorem steering_matches_spec (t : Transform) (target : Vec3) (p : Physics)
    (hne : target ≠ t.translation) (hmf : 0 ≤ p.max_force) :
    steeringForce t.translation target p =
      some (specSeekForce t.translation target p) ∧
    steering t target p =
      some { p with
              acceleration := p.acceleration + specSeekForce t.translation target p } := by
  have hd : target - t.translation ≠ 0 := fun h => hne (Vec3.sub_eq_zero_vec.mp h)
  have h1 : steeringForce t.translation target p =
      some (specSeekForce t.translation target p) := by
    unfold steeringForce
    rw [Vec3.normalize, if_neg hd, Option.map_some']
    congr 1
    rw [clampLengthMax_eq_spec _ hmf, specSeekForce, one_div]
  refine ⟨h1, ?_⟩
  unfold steering
  rw [h1, Option.map_some']
  rfl

/-- C2 witness at a concrete input. -/
theorem steering_matches_spec_witness :
    steeringForce ⟨0, 0, 0⟩ ⟨0, 1, 0⟩ ⟨⟨0, 0, 0⟩, ⟨0, 0, 0⟩, 2, 3⟩ =
      some (specSeekForce ⟨0, 0, 0⟩ ⟨0, 1, 0⟩ ⟨⟨0, 0, 0⟩, ⟨0, 0, 0⟩, 2, 3⟩) ∧
    steering ⟨⟨0, 0, 0⟩, 0⟩ ⟨0, 1, 0⟩ ⟨⟨0, 0, 0⟩, ⟨0, 0, 0⟩, 2, 3⟩ =
      some ⟨⟨0, 0, 0⟩,
        (⟨0, 0, 0⟩ : Vec3) + specSeekForce ⟨0, 0, 0⟩ ⟨0, 1, 0⟩ ⟨⟨0, 0, 0⟩, ⟨0, 0, 0⟩, 2, 3⟩,
        2, 3⟩ :=
  steering_matches_spec ⟨⟨0, 0, 0⟩, 0⟩ ⟨0, 1, 0⟩ ⟨⟨0, 0, 0⟩, ⟨0, 0, 0⟩, 2, 3⟩
    (fun h => one_ne_zero (congrArg Vec3.y h)) (by norm_num)

/-- C3 counterexample: at an input whose `max_force` is nonnegative but whose
target coincides with the agent position, the steering computation returns
no force at all (the source normalizes the zero vector and produces NaN,
modelled as `none`), so no force of magnitude at most `max_force` is
returned or accumulated. -/
theorem force_cap_counterexample :
    steeringForce ⟨0, 0, 0⟩ ⟨0, 0, 0⟩ ⟨⟨1, 0, 0⟩, ⟨0, 0, 0⟩, 2, 1⟩ = none ∧
    (0 : ℝ) ≤ 1 := by
  constructor
  · unfold steeringForce
    rw [Vec3.sub_self_vec, Vec3.normalize, if_pos rfl, Option.map_none']
  · norm_num

/-- C3 (amended): for every steering computation whose target differs from
the agent position, any force the steering step returns has magnitude at
most `max_force` (for `max_force ≥ 0`), however large the gap between
desired and current velocity. -/
theorem steering_force_capped (t : Transform) (target : Vec3) (p : Physics)
    (f : Vec3) (hne : target ≠ t.translation) (hmf : 0 ≤ p.max_force)
    (hf : steeringForce t.translation target p = some f) :
    Vec3.length f ≤ p.max_force := by
  unfold steeringForce at hf
  rw [Vec3.normalize, if_neg (fun h => hne (Vec3.sub_eq_zero_vec.mp h)),
    Option.map_some'] at hf
  have hfe := Option.some.inj hf
  subst hfe
  exact Vec3.length_clampLengthMax_le _ hmf

lemma steeringForce_eval :
    steeringForce ⟨0, 0, 0⟩ ⟨0, 1, 0⟩ ⟨⟨0, 0, 0⟩, ⟨0, 0, 0⟩, 2, 3⟩ =
      some ⟨0, 2, 0⟩ := by
  unfold steeringForce
  rw [show (⟨0, 1, 0⟩ : Vec3) - ⟨0, 0, 0⟩ = ⟨0, 1, 0⟩ from by ext <;> norm_num,
    normalize_y one_pos, Option.map_some']
  congr 1
  show Vec3.clampLengthMax ((2 : ℝ) • ⟨0, 1, 0⟩ - ⟨0, 0, 0⟩) 3 = ⟨0, 2, 0⟩
  rw [show (2 : ℝ) • (⟨0, 1, 0⟩ : Vec3) - ⟨0, 0, 0⟩ = (⟨0, 2, 0⟩ : Vec3) from by
      ext <;> norm_num]
  exact clamp_keep (by rw [lengthSq_y]; norm_num)

/-- C3 witness at a concrete input. -/
theorem steering_force_capped_witness :
    steeringForce ⟨0, 0, 0⟩ ⟨0, 1, 0⟩ ⟨⟨0, 0, 0⟩, ⟨0, 0, 0⟩, 2, 3⟩ =
      some ⟨0, 2, 0⟩ ∧
    Vec3.length ⟨0, 2, 0⟩ ≤ (3 : ℝ) :=
  ⟨steeringForce_eval,
    steering_force_capped ⟨⟨0, 0, 0⟩, 0⟩ ⟨0, 1, 0⟩ ⟨⟨0, 0, 0⟩, ⟨0, 0, 0⟩, 2, 3⟩
      ⟨0, 2, 0⟩ (fun h => one_ne_zero (congrArg Vec3.y h)) (by norm_num)
      steeringForce_eval⟩

lemma physics_system_mk (t : Transform) (p : Physics) :
    physics_system t p =
      ( ⟨t.translation + (p.velocity + p.acceleration),
          angle_to_direction (p.velocity + p.acceleration)⟩,
        ⟨Vec3.clampLengthMax (p.velocity + p.acceleration) p.max_speed, 0,
          p.max_speed, p.max_force⟩ ) := rfl

lemma frame_eq (s : BoidState) :
    frame s =
      (steering (physics_system s.transform s.physics).1 s.target
          (physics_system s.transform s.physics).2).map
        fun p => ⟨(physics_system s.transform s.physics).1, p, s.target⟩ := rfl

/-- State of every frame-level field after one frame of the schedule of
src/main.rs: the integrator consumes the acceleration accumulated before the
frame, and the acceleration left at frame end is the steering force freshly
computed from the post-integration state. -/
lemma frame_fields (s s' : BoidState) (h : frame s = some s') :
    s'.physics.velocity =
      Vec3.clampLengthMax (s.physics.velocity + s.physics.acceleration)
        s.physics.max_speed ∧
    s'.physics.max_speed = s.physics.max_speed ∧
    s'.transform = (physics_system s.transform s.physics).1 ∧
    steeringForce s'.transform.translation s.target
        { s'.physics with acceleration := 0 } = some s'.physics.acceleration := by
  rcases hsf : steeringForce (physics_system s.transform s.physics).1.translation
      s.target (physics_system s.transform s.physics).2 with _ | f
  · have hnone : frame s = none := by
      rw [frame_eq]
      unfold steering
      rw [hsf]
      rfl
    rw [hnone] at h
    cases h
  · have hsome : frame s = some ⟨(physics_system s.transform s.physics).1,
        apply_force (physics_system s.transform s.physics).2 f, s.target⟩ := by
      rw [frame_eq]
      unfold steering
      rw [hsf]
      rfl
    rw [hsome] at h
    obtain rfl := Option.some.inj h
    refine ⟨rfl, rfl, rfl, ?_⟩
    show steeringForce (physics_system s.transform s.physics).1.translation
        s.target (physics_system s.transform s.physics).2 = some ((0 : Vec3) + f)
    rw [Vec3.zero_add_vec]
    exact hsf

/-- C1 (amended): speed cap invariant restricted to non-degenerate runs:
from any start state with `max_speed ≥ 0`, after any positive number of
frames — each frame seeing an arbitrary target position — whenever the run
produces a real-valued state (no frame's target coincided with the boid's
post-integration position, see `frame_none_iff_degenerate`; otherwise the
source stores NaN, modelled as `none`), the stored velocity of the boid has
magnitude at most `max_speed`. -/
theorem speed_cap_frames (ts : List Vec3) (s s' : BoidState)
    (hms : 0 ≤ s.physics.max_speed) (hne : ts ≠ [])
    (hrun : runFrames s ts = some s') :
    Vec3.length s'.physics.velocity ≤ s.physics.max_speed := by
  induction ts generalizing s with
  | nil => exact absurd rfl hne
  | cons t rest ih =>
    simp only [runFrames] at hrun
    obtain ⟨s₁, hf, hrest⟩ := Option.bind_eq_some'.mp hrun
    have hfields := frame_fields _ _ hf
    rcases rest with _ | ⟨t2, rest2⟩
    · simp only [runFrames] at hrest
      obtain rfl := Option.some.inj hrest
      rw [hfields.1]
      exact Vec3.length_clampLengthMax_le _ hms
    · have hms1 : 0 ≤ s₁.physics.max_speed := by
        rw [hfields.2.1]
        exact hms
      have hb := ih s₁ hms1 (by simp) hrest
      rwa [hfields.2.1] at hb

lemma physics_eval_a :
    physics_system ⟨⟨0, 0, 0⟩, 0⟩ ⟨⟨0, 0, 0⟩, ⟨0, 1, 0⟩, 2, 3⟩ =
      (⟨⟨0, 1, 0⟩, 0⟩, ⟨⟨0, 1, 0⟩, 0, 2, 3⟩) := by
  rw [physics_system_mk]
  show (Prod.mk
      (⟨(⟨0, 0, 0⟩ : Vec3) + ((⟨0, 0, 0⟩ : Vec3) + ⟨0, 1, 0⟩),
        angle_to_direction ((⟨0, 0, 0⟩ : Vec3) + ⟨0, 1, 0⟩)⟩ : Transform)
      (⟨Vec3.clampLengthMax ((⟨0, 0, 0⟩ : Vec3) + ⟨0, 1, 0⟩) 2, 0, 2, 3⟩ : Physics))
    = _
  rw [show (⟨0, 0, 0⟩ : Vec3) + ⟨0, 1, 0⟩ = ⟨0, 1, 0⟩ from by ext <;> norm_num]
  rw [show (⟨0, 0, 0⟩ : Vec3) + ⟨0, 1, 0⟩ = ⟨0, 1, 0⟩ from by ext <;> norm_num]
  rw [angle_to_direction_y one_pos, clamp_keep (by rw [lengthSq_y]; norm_num)]

lemma steering_eval_a :
    steering ⟨⟨0, 1, 0⟩, 0⟩ ⟨0, 3, 0⟩ ⟨⟨0, 1, 0⟩, 0, 2, 3⟩ =
      some ⟨⟨0, 1, 0⟩, ⟨0, 1, 0⟩, 2, 3⟩ := by
  unfold steering steeringForce
  rw [show (⟨0, 3, 0⟩ : Vec3) - ⟨0, 1, 0⟩ = ⟨0, 2, 0⟩ from by ext <;> norm_num,
    normalize_y two_pos, Option.map_some', Option.map_some']
  congr 1
  show apply_force ⟨⟨0, 1, 0⟩, 0, 2, 3⟩
      (Vec3.clampLengthMax ((2 : ℝ) • ⟨0, 1, 0⟩ - ⟨0, 1, 0⟩) 3) = _
  rw [show (2 : ℝ) • (⟨0, 1, 0⟩ : Vec3) - ⟨0, 1, 0⟩ = (⟨0, 1, 0⟩ : Vec3) from by
      ext <;> norm_num,
    clamp_keep (by rw [lengthSq_y]; norm_num)]
  show Physics.mk ⟨0, 1, 0⟩ ((0 : Vec3) + ⟨0, 1, 0⟩) 2 3 = _
  rw [Vec3.zero_add_vec]

lemma frame_s0 :
    frame ⟨⟨⟨0, 0, 0⟩, 0⟩, ⟨⟨0, 0, 0⟩, ⟨0, 1, 0⟩, 2, 3⟩, ⟨0, 3, 0⟩⟩ =
      some ⟨⟨⟨0, 1, 0⟩, 0⟩, ⟨⟨0, 1, 0⟩, ⟨0, 1, 0⟩, 2, 3⟩, ⟨0, 3, 0⟩⟩ := by
  rw [frame_eq, physics_eval_a]
  show (steering ⟨⟨0, 1, 0⟩, 0⟩ ⟨0, 3, 0⟩ ⟨⟨0, 1, 0⟩, 0, 2, 3⟩).map
      (fun p => (⟨⟨⟨0, 1, 0⟩, 0⟩, p, ⟨0, 3, 0⟩⟩ : BoidState)) =
    some ⟨⟨⟨0, 1, 0⟩, 0⟩, ⟨⟨0, 1, 0⟩, ⟨0, 1, 0⟩, 2, 3⟩, ⟨0, 3, 0⟩⟩
  rw [steering_eval_a, Option.map_some']

/-- C6 counterexample: a concrete state on which a full frame cycle ends
with a nonzero acceleration — the frame's steering force, computed after the
integrator ran, is still stored in the accumulator at frame end. -/
theorem accumulator_reset_counterexample :
    frame ⟨⟨⟨0, 0, 0⟩, 0⟩, ⟨⟨0, 0, 0⟩, ⟨0, 1, 0⟩, 2, 3⟩, ⟨0, 3, 0⟩⟩ =
      some ⟨⟨⟨0, 1, 0⟩, 0⟩, ⟨⟨0, 1, 0⟩, ⟨0, 1, 0⟩, 2, 3⟩, ⟨0, 3, 0⟩⟩ ∧
    (⟨⟨⟨0, 1, 0⟩, 0⟩, ⟨⟨0, 1, 0⟩, ⟨0, 1, 0⟩, 2, 3⟩,
        ⟨0, 3, 0⟩⟩ : BoidState).physics.acceleration ≠ 0 :=
  ⟨frame_s0, fun h => one_ne_zero (congrArg Vec3.y h)⟩

/-- C1 witness: one concrete frame from a concrete state. -/
theorem speed_cap_frames_witness : Vec3.length (⟨0, 1, 0⟩ : Vec3) ≤ (2 : ℝ) :=
  speed_cap_frames [⟨0, 3, 0⟩]
    ⟨⟨⟨0, 0, 0⟩, 0⟩, ⟨⟨0, 0, 0⟩, ⟨0, 1, 0⟩, 2, 3⟩, ⟨0, 3, 0⟩⟩
    ⟨⟨⟨0, 1, 0⟩, 0⟩, ⟨⟨0, 1, 0⟩, ⟨0, 1, 0⟩, 2, 3⟩, ⟨0, 3, 0⟩⟩
    (by show (0 : ℝ) ≤ 2; norm_num) (by simp)
    (by
      show (frame ⟨⟨⟨0, 0, 0⟩, 0⟩, ⟨⟨0, 0, 0⟩, ⟨0, 1, 0⟩, 2, 3⟩, ⟨0, 3, 0⟩⟩).bind
          (fun s2 => runFrames s2 []) =
        some ⟨⟨⟨0, 1, 0⟩, 0⟩, ⟨⟨0, 1, 0⟩, ⟨0, 1, 0⟩, 2, 3⟩, ⟨0, 3, 0⟩⟩
      rw [frame_s0]
      rfl)

lemma steering_eval_b :
    steering ⟨⟨0, 0, 0⟩, 0⟩ ⟨0, 3, 0⟩ ⟨⟨0, 0, 0⟩, ⟨0, 1, 0⟩, 2, 3⟩ =
      some ⟨⟨0, 0, 0⟩, ⟨0, 3, 0⟩, 2, 3⟩ := by
  unfold steering steeringForce
  rw [show (⟨0, 3, 0⟩ : Vec3) - ⟨0, 0, 0⟩ = ⟨0, 3, 0⟩ from by ext <;> norm_num,
    normalize_y (by norm_num : (0 : ℝ) < 3), Option.map_some', Option.map_some']
  congr 1
  show apply_force ⟨⟨0, 0, 0⟩, ⟨0, 1, 0⟩, 2, 3⟩
      (Vec3.clampLengthMax ((2 : ℝ) • ⟨0, 1, 0⟩ - ⟨0, 0, 0⟩) 3) = _
  rw [show (2 : ℝ) • (⟨0, 1, 0⟩ : Vec3) - ⟨0, 0, 0⟩ = (⟨0, 2, 0⟩ : Vec3) from by
      ext <;> norm_num,
    clamp_keep (by rw [lengthSq_y]; norm_num)]
  show Physics.mk ⟨0, 0, 0⟩ ((⟨0, 1, 0⟩ : Vec3) + ⟨0, 2, 0⟩) 2 3 = _
  rw [show (⟨0, 1, 0⟩ : Vec3) + ⟨0, 2, 0⟩ = ⟨0, 3, 0⟩ from by ext <;> norm_num]

lemma physics_eval_b :
    physics_system ⟨⟨0, 0, 0⟩, 0⟩ ⟨⟨0, 0, 0⟩, ⟨0, 3, 0⟩, 2, 3⟩ =
      (⟨⟨0, 3, 0⟩, 0⟩, ⟨⟨0, 2, 0⟩, 0, 2, 3⟩) := by
  rw [physics_system_mk]
  show (Prod.mk
      (⟨(⟨0, 0, 0⟩ : Vec3) + ((⟨0, 0, 0⟩ : Vec3) + ⟨0, 3, 0⟩),
        angle_to_direction ((⟨0, 0, 0⟩ : Vec3) + ⟨0, 3, 0⟩)⟩ : Transform)
      (⟨Vec3.clampLengthMax ((⟨0, 0, 0⟩ : Vec3) + ⟨0, 3, 0⟩) 2, 0, 2, 3⟩ : Physics))
    = _
  rw [show (⟨0, 0, 0⟩ : Vec3) + ⟨0, 3, 0⟩ = ⟨0, 3, 0⟩ from by ext <;> norm_num]
  rw [show (⟨0, 0, 0⟩ : Vec3) + ⟨0, 3, 0⟩ = ⟨0, 3, 0⟩ from by ext <;> norm_num]
  rw [angle_to_direction_y (by norm_num : (0 : ℝ) < 3)]
  rw [Vec3.clampLengthMax, if_pos (by rw [lengthSq_y]; norm_num),
    length_y (by norm_num : (0 : ℝ) ≤ 3)]
  rw [show ((2 : ℝ) / 3) • (⟨0, 3, 0⟩ : Vec3) = (⟨0, 2, 0⟩ : Vec3) from by
      ext <;> norm_num]

lemma frameSpecOrder_eq (s : BoidState) :
    frameSpecOrder s =
      (steering s.transform s.target s.physics).map
        fun p => ⟨(physics_system s.transform p).1, (physics_system s.transform p).2,
          s.target⟩ := rfl

lemma frameSpecOrder_s0 :
    frameSpecOrder ⟨⟨⟨0, 0, 0⟩, 0⟩, ⟨⟨0, 0, 0⟩, ⟨0, 1, 0⟩, 2, 3⟩, ⟨0, 3, 0⟩⟩ =
      some ⟨⟨⟨0, 3, 0⟩, 0⟩, ⟨⟨0, 2, 0⟩, 0, 2, 3⟩, ⟨0, 3, 0⟩⟩ := by
  rw [frameSpecOrder_eq]
  show (steering ⟨⟨0, 0, 0⟩, 0⟩ ⟨0, 3, 0⟩ ⟨⟨0, 0, 0⟩, ⟨0, 1, 0⟩, 2, 3⟩).map
      (fun p => (⟨(physics_system ⟨⟨0, 0, 0⟩, 0⟩ p).1,
        (physics_system ⟨⟨0, 0, 0⟩, 0⟩ p).2, ⟨0, 3, 0⟩⟩ : BoidState)) =
    some ⟨⟨⟨0, 3, 0⟩, 0⟩, ⟨⟨0, 2, 0⟩, 0, 2, 3⟩, ⟨0, 3, 0⟩⟩
  rw [steering_eval_b, Option.map_some', physics_eval_b]

/-- C8 counterexample: on a concrete state, running the frame as the source
schedules it (integration first, steering second) produces a different state
than running steering first and integration second as the claim describes. -/
theorem frame_order_counterexample :
    frame ⟨⟨⟨0, 0, 0⟩, 0⟩, ⟨⟨0, 0, 0⟩, ⟨0, 1, 0⟩, 2, 3⟩, ⟨0, 3, 0⟩⟩ ≠
      frameSpecOrder ⟨⟨⟨0, 0, 0⟩, 0⟩, ⟨⟨0, 0, 0⟩, ⟨0, 1, 0⟩, 2, 3⟩, ⟨0, 3, 0⟩⟩ := by
  rw [frame_s0, frameSpecOrder_s0]
  intro h
  have h3 := congrArg (fun s : BoidState => s.transform.translation.y)
    (Option.some.inj h)
  norm_num at h3

/-- C8 (amended): within every frame the integration step runs first and the
steering computation second (`steering.after(physics_system)`): the
integrator consumes the acceleration accumulated before the frame — position
and velocity are computed from it — and the acceleration left at frame end
is the steering force freshly computed from the post-integration state,
which only the next frame's integrator will consume. -/
theorem frame_runs_integration_then_steering (s s' : BoidState)
    (h : frame s = some s') :
    s'.transform.translation =
      s.transform.translation + (s.physics.velocity + s.physics.acceleration) ∧
    s'.physics.velocity =
      Vec3.clampLengthMax (s.physics.velocity + s.physics.acceleration)
        s.physics.max_speed ∧
    steeringForce s'.transform.translation s.target
        { s'.physics with acceleration := 0 } = some s'.physics.acceleration := by
  obtain ⟨hv, hms, ht, hsf⟩ := frame_fields _ _ h
  refine ⟨?_, hv, hsf⟩
  rw [ht, physics_system_mk]

/-- C8 witness at a concrete frame. -/
theorem frame_runs_integration_then_steering_witness :
    (⟨0, 1, 0⟩ : Vec3) = ⟨0, 0, 0⟩ + ((⟨0, 0, 0⟩ : Vec3) + ⟨0, 1, 0⟩) ∧
    (⟨0, 1, 0⟩ : Vec3) = Vec3.clampLengthMax ((⟨0, 0, 0⟩ : Vec3) + ⟨0, 1, 0⟩) 2 ∧
    steeringForce ⟨0, 1, 0⟩ ⟨0, 3, 0⟩ ⟨⟨0, 1, 0⟩, 0, 2, 3⟩ = some ⟨0, 1, 0⟩ :=
  frame_runs_integration_then_steering
    ⟨⟨⟨0, 0, 0⟩, 0⟩, ⟨⟨0, 0, 0⟩, ⟨0, 1, 0⟩, 2, 3⟩, ⟨0, 3, 0⟩⟩
    ⟨⟨⟨0, 1, 0⟩, 0⟩, ⟨⟨0, 1, 0⟩, ⟨0, 1, 0⟩, 2, 3⟩, ⟨0, 3, 0⟩⟩ frame_s0

/-- Characterization of the runs excluded from the amended speed-cap
invariant: a frame of the source's schedule fails to produce a real-valued
state (the source stores NaN) exactly when the frame's target coincides with
the boid's post-integration position, making steering normalize the zero
vector. -/
lemma frame_none_iff_degenerate (s : BoidState) :
    frame s = none ↔
      s.target = (physics_system s.transform s.physics).1.translation := by
  rw [frame_eq]
  unfold steering steeringForce
  by_cases h : s.target - (physics_system s.transform s.physics).1.translation = 0
  · rw [Vec3.normalize, if_pos h]
    exact ⟨fun _ => Vec3.sub_eq_zero_vec.mp h, fun _ => rfl⟩
  · rw [Vec3.normalize, if_neg h]
    constructor
    · intro hc
      exact Option.noConfusion hc
    · intro hc
      exact absurd (Vec3.sub_eq_zero_vec.mpr hc) h

/-- C1 counterexample: a concrete state with `max_speed = 2 ≥ 0` and a
concrete two-frame target sequence whose first target coincides with the
boid's post-integration position.  There the source normalizes the zero
vector: NaN is accumulated into the acceleration and the next integration
step stores a NaN velocity, whose magnitude is not `≤ max_speed`; in the
model the run yields no real-valued state at all (`none`), so the claimed
cap fails on this sequence of target positions. -/
theorem speed_cap_counterexample :
    runFrames ⟨⟨⟨0, 0, 0⟩, 0⟩, ⟨⟨0, 0, 0⟩, ⟨0, 1, 0⟩, 2, 3⟩, ⟨0, 3, 0⟩⟩
      [⟨0, 1, 0⟩, ⟨9, 9, 9⟩] = none ∧ (0 : ℝ) ≤ 2 := by
  constructor
  · have hfr : frame ⟨⟨⟨0, 0, 0⟩, 0⟩, ⟨⟨0, 0, 0⟩, ⟨0, 1, 0⟩, 2, 3⟩, ⟨0, 1, 0⟩⟩ =
        none := by
      rw [frame_eq, physics_eval_a]
      show (steering ⟨⟨0, 1, 0⟩, 0⟩ ⟨0, 1, 0⟩ ⟨⟨0, 1, 0⟩, 0, 2, 3⟩).map
          (fun p => (⟨⟨⟨0, 1, 0⟩, 0⟩, p, ⟨0, 1, 0⟩⟩ : BoidState)) = none
      unfold steering steeringForce
      rw [Vec3.sub_self_vec, Vec3.normalize, if_pos rfl]
      rfl
    show (frame ⟨⟨⟨0, 0, 0⟩, 0⟩, ⟨⟨0, 0, 0⟩, ⟨0, 1, 0⟩, 2, 3⟩, ⟨0, 1, 0⟩⟩).bind
        (fun s2 => runFrames s2 [⟨9, 9, 9⟩]) = none
    rw [hfr]
    rfl
  · norm_num
